import Mathlib

set_option maxRecDepth 100000

/-!
Verification of the polling-and-threshold-trigger loops of the move_bridge
repository (src/src/auto-transaction-trigger.ts, src/src/token-auto-transfer.ts,
src/unnamed/part_000, src/unnamed/part_001).

The scripts are sequential poll-then-act loops; each loop body is embedded as a
pure step function over an explicit state, parameterised by the outcomes of the
external chain calls (view reads, transaction submission).  JavaScript `number`
arithmetic (IEEE 754 binary64) is modelled over `ℚ` by an explicit
round-to-nearest, ties-to-even rounding function with unbounded exponent range
(the magnitudes involved are far from overflow and subnormal thresholds).
-/

namespace MoveBridge

/-! ## Binary64 rounding over ℚ -/

/-- Fuel-bounded base-2 logarithm on `ℕ` (structural recursion so that it
reduces definitionally). -/
def log2fuel : ℕ → ℕ → ℕ
  | 0, _ => 0
  | fuel + 1, n => if 2 ≤ n then log2fuel fuel (n / 2) + 1 else 0

/-- Base-2 logarithm, exact for arguments below `2 ^ 128`. -/
def nlog2 (n : ℕ) : ℕ := log2fuel 128 n

/-- Floor of a rational, computed on the numerator and denominator. -/
def qfloor (q : ℚ) : ℤ := q.num.fdiv q.den

/-- Powers of two with integer exponent, built from core operations. -/
def qpow2 (z : ℤ) : ℚ :=
  match z with
  | .ofNat n => ((2 ^ n : ℕ) : ℚ)
  | .negSucc n => mkRat 1 (2 ^ (n + 1))

/-- The constant one half. -/
def qhalf : ℚ := mkRat 1 2

/-- Round a rational to the nearest integer, ties to even. -/
def roundTiesEven (s : ℚ) : ℤ :=
  if s - (qfloor s : ℚ) < qhalf then qfloor s
  else if qhalf < s - (qfloor s : ℚ) then qfloor s + 1
  else if qfloor s % 2 = 0 then qfloor s else qfloor s + 1

/-- Floor of the base-2 logarithm of a positive rational. -/
def qlog2 (q : ℚ) : ℤ :=
  if qpow2 ((nlog2 q.num.toNat : ℤ) - (nlog2 q.den : ℤ)) ≤ q then
    (nlog2 q.num.toNat : ℤ) - (nlog2 q.den : ℤ)
  else
    (nlog2 q.num.toNat : ℤ) - (nlog2 q.den : ℤ) - 1

/-- Round a rational to the nearest IEEE 754 binary64 value (53-bit
significand, round to nearest, ties to even), ignoring overflow and
subnormals, which are unreachable for the magnitudes in this development. -/
def roundDouble (q : ℚ) : ℚ :=
  if 0 < q then
    (roundTiesEven (q * qpow2 (52 - qlog2 q)) : ℚ) * qpow2 (qlog2 q - 52)
  else if q < 0 then
    -((roundTiesEven (-q * qpow2 (52 - qlog2 (-q))) : ℚ) * qpow2 (qlog2 (-q) - 52))
  else 0

lemma log2fuel_spec : ∀ fuel n, 1 ≤ n → n < 2 ^ fuel →
    2 ^ log2fuel fuel n ≤ n ∧ n < 2 ^ (log2fuel fuel n + 1) := by
  intro fuel
  induction fuel with
  | zero => intro n h1 h2; omega
  | succ fuel ih =>
    intro n h1 h2
    rw [log2fuel]
    by_cases h : 2 ≤ n
    · rw [if_pos h]
      have hm1 : 1 ≤ n / 2 := by omega
      have hm2 : n / 2 < 2 ^ fuel := by
        rw [pow_succ] at h2
        omega
      obtain ⟨ha, hb⟩ := ih (n / 2) hm1 hm2
      constructor
      · rw [pow_succ]
        omega
      · rw [pow_succ, pow_succ] at *
        omega
    · rw [if_neg h]
      simp only [pow_zero, pow_one]
      omega

lemma nlog2_spec (n : ℕ) (h1 : 1 ≤ n) (h2 : n < 2 ^ 128) :
    2 ^ nlog2 n ≤ n ∧ n < 2 ^ (nlog2 n + 1) :=
  log2fuel_spec 128 n h1 h2

lemma qpow2_eq_zpow (z : ℤ) : qpow2 z = (2 : ℚ) ^ z := by
  cases z with
  | ofNat n => simp [qpow2, zpow_natCast]
  | negSucc n =>
    rw [qpow2, Rat.mkRat_eq_div, zpow_negSucc]
    push_cast
    norm_num

lemma qhalf_pos : (0 : ℚ) < qhalf := by
  rw [qhalf, Rat.mkRat_eq_div]
  norm_num

lemma qfloor_intCast (m : ℤ) : qfloor (m : ℚ) = m := by
  simp [qfloor, Rat.num_intCast, Rat.den_intCast]

lemma roundTiesEven_intCast (m : ℤ) : roundTiesEven (m : ℚ) = m := by
  unfold roundTiesEven
  rw [qfloor_intCast, sub_self, if_pos qhalf_pos]

lemma qlog2_bounds_aux (A B la lb : ℕ) (q : ℚ)
    (hA1 : 2 ^ la ≤ A) (hA2 : A < 2 ^ (la + 1))
    (hB1 : 2 ^ lb ≤ B) (hB2 : B < 2 ^ (lb + 1))
    (hB0 : 0 < B) (hq : q = (A : ℚ) / (B : ℚ)) :
    (2 : ℚ) ^ ((la : ℤ) - lb - 1) ≤ q ∧ q < (2 : ℚ) ^ ((la : ℤ) - lb + 1) := by
  have hBQ : (0 : ℚ) < (B : ℚ) := by exact_mod_cast hB0
  constructor
  · rw [hq, le_div_iff₀ hBQ]
    have step : (2 : ℚ) ^ ((la : ℤ) - lb - 1) * (B : ℚ) < (2 : ℚ) ^ (la : ℤ) := by
      calc (2 : ℚ) ^ ((la : ℤ) - lb - 1) * (B : ℚ)
          < (2 : ℚ) ^ ((la : ℤ) - lb - 1) * (2 : ℚ) ^ ((lb + 1 : ℕ) : ℤ) := by
            apply mul_lt_mul_of_pos_left _ (zpow_pos two_pos _)
            rw [zpow_natCast]
            exact_mod_cast hB2
        _ = (2 : ℚ) ^ (la : ℤ) := by
            rw [← zpow_add₀ ((two_ne_zero : (2 : ℚ) ≠ 0))]
            congr 1
            push_cast
            ring
    have last : (2 : ℚ) ^ (la : ℤ) ≤ (A : ℚ) := by
      rw [zpow_natCast]
      exact_mod_cast hA1
    exact (lt_of_lt_of_le step last).le
  · rw [hq, div_lt_iff₀ hBQ]
    calc (A : ℚ) < ((2 ^ (la + 1) : ℕ) : ℚ) := by exact_mod_cast hA2
      _ = (2 : ℚ) ^ ((la : ℤ) - lb + 1) * (2 : ℚ) ^ (lb : ℤ) := by
          rw [← zpow_add₀ ((two_ne_zero : (2 : ℚ) ≠ 0))]
          push_cast
          rw [← zpow_natCast (2 : ℚ) (la + 1)]
          congr 1
          push_cast
          ring
      _ ≤ (2 : ℚ) ^ ((la : ℤ) - lb + 1) * (B : ℚ) := by
          apply mul_le_mul_of_nonneg_left _ (zpow_pos two_pos _).le
          rw [zpow_natCast]
          exact_mod_cast hB1

lemma qlog2_spec (q : ℚ) (hq : 0 < q)
    (hnum : q.num.toNat < 2 ^ 128) (hden : q.den < 2 ^ 128) :
    (2 : ℚ) ^ qlog2 q ≤ q ∧ q < (2 : ℚ) ^ (qlog2 q + 1) := by
  have hnum0 : 0 < q.num := Rat.num_pos.mpr hq
  have ha1 : 1 ≤ q.num.toNat := by omega
  have hb1 : 1 ≤ q.den := q.den_pos
  obtain ⟨hla1, hla2⟩ := nlog2_spec q.num.toNat ha1 hnum
  obtain ⟨hlb1, hlb2⟩ := nlog2_spec q.den hb1 hden
  have hcast : ((q.num.toNat : ℕ) : ℚ) = (q.num : ℚ) := by
    exact_mod_cast congrArg (fun z : ℤ => (z : ℚ)) (Int.toNat_of_nonneg hnum0.le)
  have hqab : q = (q.num.toNat : ℚ) / (q.den : ℚ) := by
    rw [hcast]
    exact (Rat.num_div_den q).symm
  obtain ⟨hlow, hup⟩ := qlog2_bounds_aux q.num.toNat q.den
    (nlog2 q.num.toNat) (nlog2 q.den) q hla1 hla2 hlb1 hlb2 hb1 hqab
  unfold qlog2
  rw [qpow2_eq_zpow]
  split_ifs with h
  · exact ⟨h, hup⟩
  · refine ⟨hlow, ?_⟩
    have h2 : (nlog2 q.num.toNat : ℤ) - (nlog2 q.den : ℤ) - 1 + 1 =
        (nlog2 q.num.toNat : ℤ) - (nlog2 q.den : ℤ) := by ring
    rw [h2]
    exact not_le.mp h

lemma roundDouble_natCast (n : ℕ) (h1 : 1 ≤ n) (h2 : n < 2 ^ 53) :
    roundDouble (n : ℚ) = (n : ℚ) := by
  have hq : (0 : ℚ) < (n : ℚ) := by exact_mod_cast h1
  have hnum : ((n : ℚ)).num.toNat = n := by
    rw [Rat.num_natCast]
    exact Int.toNat_natCast n
  have hden : ((n : ℚ)).den = 1 := Rat.den_natCast n
  have hspec := qlog2_spec (n : ℚ) hq
    (by rw [hnum]; calc n < 2 ^ 53 := h2
          _ ≤ 2 ^ 128 := by norm_num)
    (by rw [hden]; norm_num)
  unfold roundDouble
  rw [if_pos hq]
  set e := qlog2 (n : ℚ) with he
  have hn53 : (n : ℚ) < (2 : ℚ) ^ ((53 : ℕ) : ℤ) := by
    rw [zpow_natCast]
    calc (n : ℚ) < ((2 ^ 53 : ℕ) : ℚ) := by exact_mod_cast h2
      _ = (2 : ℚ) ^ (53 : ℕ) := by push_cast; ring
  have he0 : 0 ≤ e := by
    by_contra hcon
    push_neg at hcon
    have hle : (2 : ℚ) ^ (e + 1) ≤ (2 : ℚ) ^ (0 : ℤ) :=
      zpow_le_zpow_right₀ one_le_two (by omega)
    rw [zpow_zero] at hle
    have : (n : ℚ) < 1 := lt_of_lt_of_le hspec.2 hle
    have : (n : ℚ) ≥ 1 := by exact_mod_cast h1
    linarith
  have he52 : e ≤ 52 := by
    by_contra hcon
    push_neg at hcon
    have hle : (2 : ℚ) ^ ((53 : ℕ) : ℤ) ≤ (2 : ℚ) ^ e :=
      zpow_le_zpow_right₀ one_le_two (by push_cast; omega)
    have : (2 : ℚ) ^ ((53 : ℕ) : ℤ) ≤ (n : ℚ) := le_trans hle hspec.1
    linarith
  set k := (52 - e).toNat with hk
  have hkZ : (k : ℤ) = 52 - e := Int.toNat_of_nonneg (by omega)
  have hs : (n : ℚ) * qpow2 (52 - e) = (((n * 2 ^ k : ℕ) : ℤ) : ℚ) := by
    rw [qpow2_eq_zpow, ← hkZ, zpow_natCast]
    push_cast
    ring
  rw [hs, roundTiesEven_intCast, qpow2_eq_zpow]
  push_cast
  rw [← zpow_natCast (2 : ℚ) k, mul_assoc, ← zpow_add₀ ((two_ne_zero : (2 : ℚ) ≠ 0))]
  have hz : (k : ℤ) + (e - 52) = 0 := by omega
  rw [hz, zpow_zero, mul_one]

lemma roundDouble_zero : roundDouble 0 = 0 := by
  unfold roundDouble
  simp [lt_irrefl]

lemma roundDouble_one : roundDouble (1 : ℚ) = 1 := by
  have h := roundDouble_natCast 1 le_rfl (by norm_num)
  simpa using h

/-! ## auto-transaction-trigger.ts: configuration and startup

`monitorAndTrigger` (src/src/auto-transaction-trigger.ts lines 142-156) reads
`PVK` and `THRESHOLD_TOKENS` from the environment and throws when either is
missing; the throw is caught by `main` (lines 231-240), which exits with
status 1.  `RECIPIENT_ETH_ADDRESS` is read only inside `executeTransaction`
(lines 76-82), which runs inside the monitoring loop.  Environment values are
modelled as `Option String` (`none` = variable absent). -/

/-- Distinguishes the descriptive startup error messages thrown by
`monitorAndTrigger`. -/
inductive StartupError
  | missingPVK
  | missingThresholdTokens
deriving DecidableEq

/-- What happens before the monitoring loop starts. -/
inductive StartupOutcome
  | fatal (e : StartupError)
  | loopEntered (recipientSet : Bool)
deriving DecidableEq

/-- Startup section of `monitorAndTrigger`
(src/src/auto-transaction-trigger.ts lines 142-156): `PVK` then
`THRESHOLD_TOKENS` are checked; `RECIPIENT_ETH_ADDRESS` is not consulted. -/
def monitorStartup (pvk thresholdTokens recipient : Option String) :
    StartupOutcome :=
  match pvk with
  | none => .fatal .missingPVK
  | some _ =>
    match thresholdTokens with
    | none => .fatal .missingThresholdTokens
    | some _ => .loopEntered recipient.isSome

/-- `main` (lines 231-240) wraps `monitorAndTrigger` and calls
`process.exit(1)` on a thrown startup error; `some c` = the process exits with
code `c` before the loop, `none` = the monitoring loop is entered. -/
def mainStartupExit (pvk thresholdTokens recipient : Option String) :
    Option ℕ :=
  match monitorStartup pvk thresholdTokens recipient with
  | .fatal _ => some 1
  | .loopEntered _ => none

/-- Errors surfaced by `executeTransaction`
(src/src/auto-transaction-trigger.ts lines 76-139). -/
inductive TxError
  | missingRecipient
  | networkFailure
deriving DecidableEq

/-- `executeTransaction` (lines 76-139): throws when `RECIPIENT_ETH_ADDRESS`
is absent, otherwise builds/signs/submits and propagates any network error;
`txOk` abstracts the outcome of the submission pipeline. -/
def executeTransaction (recipient : Option String) (txOk : Bool) :
    Except TxError Unit :=
  match recipient with
  | none => .error .missingRecipient
  | some _ => if txOk then .ok () else .error .networkFailure

/-! ## auto-transaction-trigger.ts: the monitoring loop

One iteration of the `while (true)` loop of `monitorAndTrigger`
(src/src/auto-transaction-trigger.ts lines 170-227).  The chain reads are
parameterised by their outcomes: `none` models a read whose underlying view
call failed (both `checkRateLimit`, lines 32-51, and `checkAccountBalance`,
lines 54-73, catch the error and return 0). -/

/-- `checkRateLimit` (lines 32-51): returns `Number(result[0])` on success
and 0 on error. -/
def checkRateLimit (r : Option ℕ) : ℚ :=
  match r with
  | some c => roundDouble c
  | none => 0

/-- `checkAccountBalance` (lines 54-73): returns `Number(result[0])` on
success and 0 on error. -/
def checkAccountBalance (r : Option ℕ) : ℚ :=
  match r with
  | some c => roundDouble c
  | none => 0

/-- `parseFloat` on a decimal numeral string whose exact value is `t`:
the nearest binary64 value. -/
def jsParseFloat (t : ℚ) : ℚ := roundDouble t

/-- `THRESHOLD = parseFloat(thresholdTokens) * 100000000`
(src/src/auto-transaction-trigger.ts line 152), with the JavaScript `*`
rounding its result to binary64. -/
def jsThreshold (t : ℚ) : ℚ := roundDouble (jsParseFloat t * 100000000)

/-- The trigger condition `capacity >= THRESHOLD` (line 204) for a threshold
string of exact decimal value `t` and an on-chain capacity `c`. -/
def triggers (t : ℚ) (c : ℕ) : Prop := jsThreshold t ≤ checkRateLimit (some c)

instance (t : ℚ) (c : ℕ) : Decidable (triggers t c) := by
  unfold triggers
  infer_instance

/-- Mutable loop state of `monitorAndTrigger` (lines 167-168). -/
structure TriggerState where
  transactionCount : ℕ
  cycleCount : ℕ
deriving DecidableEq

/-- Outcomes of the external calls during one cycle. -/
structure CycleInput where
  balanceRead : Option ℕ
  capacityRead : Option ℕ
  execSucceeds : Bool
deriving DecidableEq

/-- Observable events of one cycle. -/
structure CycleEvents where
  exitCode : Option ℕ
  balanceChecks : ℕ
  capacityChecks : ℕ
  execAttempts : ℕ
  capacityValue : Option ℚ
  delayMs : Option ℕ
deriving DecidableEq

/-- One iteration of the `while (true)` loop of `monitorAndTrigger`
(src/src/auto-transaction-trigger.ts lines 170-227):
`cycleCount++`; every 10th cycle the balance is read and
`balanceInTokens <= 1000` calls `process.exit(0)` (lines 176-188); otherwise
the capacity is read (line 191; plus a second balance read for logging on
10th cycles, lines 196-199); `capacity >= THRESHOLD` increments
`transactionCount` and attempts `executeTransaction` exactly once, with any
failure caught (lines 204-218); the cycle ends with a 3000 ms sleep
(line 221). -/
def cycleStep (threshold : ℚ) (s : TriggerState) (inp : CycleInput) :
    TriggerState × CycleEvents :=
  if (s.cycleCount + 1) % 10 = 0 ∧
      checkAccountBalance inp.balanceRead / 100000000 ≤ 1000 then
    ({ transactionCount := s.transactionCount, cycleCount := s.cycleCount + 1 },
     { exitCode := some 0, balanceChecks := 1, capacityChecks := 0,
       execAttempts := 0, capacityValue := none, delayMs := none })
  else if threshold ≤ checkRateLimit inp.capacityRead then
    ({ transactionCount := s.transactionCount + 1, cycleCount := s.cycleCount + 1 },
     { exitCode := none,
       balanceChecks := if (s.cycleCount + 1) % 10 = 0 then 2 else 0,
       capacityChecks := 1, execAttempts := 1,
       capacityValue := some (checkRateLimit inp.capacityRead),
       delayMs := some 3000 })
  else
    ({ transactionCount := s.transactionCount, cycleCount := s.cycleCount + 1 },
     { exitCode := none,
       balanceChecks := if (s.cycleCount + 1) % 10 = 0 then 2 else 0,
       capacityChecks := 1, execAttempts := 0,
       capacityValue := some (checkRateLimit inp.capacityRead),
       delayMs := some 3000 })

/-- Run of the monitoring loop over a list of per-cycle external outcomes,
collecting the event trace; the loop stops only when a cycle exits the
process. -/
def runTrigger (threshold : ℚ) :
    TriggerState → List CycleInput → TriggerState × List CycleEvents
  | s, [] => (s, [])
  | s, inp :: rest =>
    let r := cycleStep threshold s inp
    match r.2.exitCode with
    | some _ => (r.1, [r.2])
    | none =>
      let r2 := runTrigger threshold r.1 rest
      (r2.1, r.2 :: r2.2)

/-! ## rate-limit monitor (src/unnamed/part_001, and the copy embedded at
src/src/auto-transaction-trigger.ts lines 240-372)

`checkRateLimit` there (part_001 lines 17-34) returns a
`{ capacity, hasCapacity }` pair, with `(0, false)` on a failed read. -/

/-- `checkRateLimit` of the rate-limit monitor (part_001 lines 17-34):
`capacity = Number(result[0])`, `hasCapacity = capacity > 0`; on error
`(0, false)`. -/
def checkRateLimitPair (r : Option ℕ) : ℚ × Bool :=
  match r with
  | some c => (roundDouble c, decide (0 < roundDouble c))
  | none => (0, false)

/-- The availability flag of a reading. -/
def hasCapacity (r : Option ℕ) : Bool := (checkRateLimitPair r).2

/-- Mutable state of `monitorRateLimit` (part_001 lines 43-45). -/
structure MonitorState where
  consecutiveAvailable : ℕ
  consecutiveBlocked : ℕ
  previousCapacity : Option ℚ
deriving DecidableEq

/-- Initial state of `monitorRateLimit` (part_001 lines 43-45). -/
def monitorInit : MonitorState :=
  { consecutiveAvailable := 0, consecutiveBlocked := 0, previousCapacity := none }

/-- Observable events of one monitor iteration: `monitorRateLimit` performs
exactly one capacity read per iteration, never calls any transaction
executor (no such call exists in the module), and sleeps
`intervalSeconds * 1000` ms (part_001 line 91). -/
structure MonitorEvents where
  capacityChecks : ℕ
  execAttempts : ℕ
  delayMs : ℕ
deriving DecidableEq

/-- One iteration of the `while (true)` loop of `monitorRateLimit`
(part_001 lines 47-97): on an available reading `consecutiveAvailable++` and
`consecutiveBlocked = 0`, on a blocked reading `consecutiveBlocked++` and
`consecutiveAvailable = 0`; the capacity is stored as `previousCapacity`
(line 88; used only for the logged delta, lines 52-59). -/
def monitorStep (intervalSeconds : ℕ) (s : MonitorState) (r : Option ℕ) :
    MonitorState × MonitorEvents :=
  let p := checkRateLimitPair r
  (if p.2 then
    { consecutiveAvailable := s.consecutiveAvailable + 1,
      consecutiveBlocked := 0, previousCapacity := some p.1 }
  else
    { consecutiveAvailable := 0,
      consecutiveBlocked := s.consecutiveBlocked + 1,
      previousCapacity := some p.1 },
   { capacityChecks := 1, execAttempts := 0,
     delayMs := intervalSeconds * 1000 })

/-- Run of the monitor loop over a list of read outcomes. -/
def runMonitor (intervalSeconds : ℕ) :
    MonitorState → List (Option ℕ) → MonitorState
  | s, [] => s
  | s, r :: rs => runMonitor intervalSeconds (monitorStep intervalSeconds s r).1 rs

/-! ## wait mode (part_001 lines 101-125) -/

/-- The attempt loop of `waitForRateLimit`: `readings i` is the outcome of
the read taken on attempt `i + 1`; returns the result together with the
number of readings taken. -/
def waitGo (readings : ℕ → Option ℕ) : ℕ → ℕ → Bool × ℕ
  | 0, taken => (false, taken)
  | fuel + 1, taken =>
    if hasCapacity (readings taken) then (true, taken + 1)
    else waitGo readings fuel (taken + 1)

/-- `waitForRateLimit` (part_001 lines 101-125):
`maxAttempts = maxWaitMinutes * 60 / 5`; attempts `1 .. maxAttempts` each
take one reading and return `true` on the first available one; after the
last attempt the function returns `false`. -/
def waitForRateLimit (readings : ℕ → Option ℕ) (maxWaitMinutes : ℕ) :
    Bool × ℕ :=
  waitGo readings (maxWaitMinutes * 60 / 5) 0

/-- `main`'s `wait` branch (part_001 lines 148-152):
`process.exit(available ? 0 : 1)`. -/
def waitExitCode (readings : ℕ → Option ℕ) (maxWaitMinutes : ℕ) : ℕ :=
  if (waitForRateLimit readings maxWaitMinutes).1 then 0 else 1

/-! ## token-auto-transfer.ts -/

/-- `MIN_BALANCE = ethers.parseUnits('300', 8)`
(src/src/token-auto-transfer.ts line 11), an exact BigInt. -/
def MIN_BALANCE : ℕ := 300 * 10 ^ 8

/-- Startup check of the transfer script
(src/src/token-auto-transfer.ts lines 21-24): missing `ETH_PVK`, `ETH_RPC`
or `UPBIT_ADDRESS` exits with code 1 before the loop; `some c` = exit with
code `c`, `none` = the loop is entered. -/
def tokenTransferStartup (ethPvk ethRpc upbit : Option String) : Option ℕ :=
  if ethPvk.isSome ∧ ethRpc.isSome ∧ upbit.isSome then none else some 1

/-- Observable outcome of one sweep iteration. -/
structure SweepEvents where
  transferInitiated : Bool
  transferAmount : Option ℕ
  transferDest : Option String
deriving DecidableEq

/-- One iteration of the `while (true)` loop of the transfer script
(src/src/token-auto-transfer.ts lines 35-68): the ERC-20 balance is read
(BigInt, exact); `balance >= MIN_BALANCE` initiates a transfer of the whole
balance to `UPBIT_ADDRESS`; otherwise nothing is sent.  `none` models a
`balanceOf` call that threw (caught at line 63, skipping the iteration). -/
def sweepStep (upbit : String) (balanceRead : Option ℕ) : SweepEvents :=
  match balanceRead with
  | none =>
    { transferInitiated := false, transferAmount := none, transferDest := none }
  | some balance =>
    if MIN_BALANCE ≤ balance then
      { transferInitiated := true, transferAmount := some balance,
        transferDest := some upbit }
    else
      { transferInitiated := false, transferAmount := none, transferDest := none }

/-! ## Claim theorems -/

/-- Claim C1 (counterexample): the claim asserts that the trigger boundary is
exact for every decimal threshold value `T`.  For `T = 0.07` the exact
product `T * 10^8` equals `7000000`, so by the claim a capacity of `7000000`
must trigger; but the code computes `parseFloat('0.07') * 100000000` in
binary64, which is strictly above `7000000`, and the reading does not
trigger. -/
theorem threshold_scaling_not_exact_for_all_decimals :
    mkRat 7 100 * 100000000 = ((7000000 : ℕ) : ℚ) ∧
    ¬ triggers (mkRat 7 100) 7000000 := by
  constructor
  · rw [Rat.mkRat_eq_div]
    norm_num
  · show ¬ jsThreshold (mkRat 7 100) ≤ checkRateLimit (some 7000000)
    rw [not_le]
    with_unfolding_all rfl

/-- Claim C1 (amended): for a threshold whose decimal value is a positive
integer `T` with `T * 10^8 < 2^53` (in particular the configured example
`T = 2000`), the internal threshold is exactly `T * 10^8` and the trigger
comparison is exact with an inclusive boundary for every capacity below
`2^53`; exactness does not extend to every decimal `T` (e.g. `T = 0.07`). -/
theorem threshold_scaling_exact_for_integer_tokens (T c : ℕ)
    (hT : 1 ≤ T) (hTb : T * 10 ^ 8 < 2 ^ 53) (hc : c < 2 ^ 53) :
    jsThreshold (T : ℚ) = ((T * 10 ^ 8 : ℕ) : ℚ) ∧
    (triggers (T : ℚ) c ↔ T * 10 ^ 8 ≤ c) := by
  have hT53 : T < 2 ^ 53 := by
    have h : T ≤ T * 10 ^ 8 := Nat.le_mul_of_pos_right T (by norm_num)
    omega
  have hTpos : 1 ≤ T * 10 ^ 8 := by
    have := Nat.mul_pos hT (show 0 < 10 ^ 8 by norm_num)
    omega
  have h1 : roundDouble (T : ℚ) = (T : ℚ) := roundDouble_natCast T hT hT53
  have hmul : (T : ℚ) * 100000000 = ((T * 10 ^ 8 : ℕ) : ℚ) := by
    push_cast
    norm_num
  have hthr : jsThreshold (T : ℚ) = ((T * 10 ^ 8 : ℕ) : ℚ) := by
    unfold jsThreshold jsParseFloat
    rw [h1, hmul, roundDouble_natCast _ hTpos hTb]
  refine ⟨hthr, ?_⟩
  unfold triggers
  rw [hthr]
  rcases Nat.eq_zero_or_pos c with hc0 | hcpos
  · subst hc0
    have h2 : checkRateLimit (some 0) = ((0 : ℕ) : ℚ) := by
      simp only [checkRateLimit, Nat.cast_zero, roundDouble_zero]
    rw [h2]
    exact Nat.cast_le
  · have h2 : checkRateLimit (some c) = (c : ℚ) := by
      simp only [checkRateLimit]
      exact roundDouble_natCast c hcpos hc
    rw [h2]
    exact Nat.cast_le

/-- Claim C1 (witness): at `T = 2000` the internal threshold is exactly
`200000000000`; capacity `200000000000` triggers and `199999999999` does
not. -/
theorem threshold_scaling_exact_witness :
    jsThreshold ((2000 : ℕ) : ℚ) = ((2000 * 10 ^ 8 : ℕ) : ℚ) ∧
    (triggers ((2000 : ℕ) : ℚ) 200000000000 ↔ 2000 * 10 ^ 8 ≤ 200000000000) ∧
    (triggers ((2000 : ℕ) : ℚ) 199999999999 ↔ 2000 * 10 ^ 8 ≤ 199999999999) :=
  ⟨(threshold_scaling_exact_for_integer_tokens 2000 200000000000 (by norm_num)
      (by norm_num) (by norm_num)).1,
   (threshold_scaling_exact_for_integer_tokens 2000 200000000000 (by norm_num)
      (by norm_num) (by norm_num)).2,
   (threshold_scaling_exact_for_integer_tokens 2000 199999999999 (by norm_num)
      (by norm_num) (by norm_num)).2⟩

/-- Claim C2: in any cycle of the auto-trigger loop that is not stopped by
the safety floor, exactly one capacity reading is taken, and exactly one
executor call is attempted when the reading meets or exceeds the threshold
while none is attempted when it is below. -/
theorem qualifying_reading_triggers_exactly_once (threshold : ℚ)
    (s : TriggerState) (inp : CycleInput)
    (h : (cycleStep threshold s inp).2.exitCode = none) :
    (cycleStep threshold s inp).2.capacityChecks = 1 ∧
    (cycleStep threshold s inp).2.execAttempts =
      (if threshold ≤ checkRateLimit inp.capacityRead then 1 else 0) := by
  by_cases h1 : (s.cycleCount + 1) % 10 = 0 ∧
      checkAccountBalance inp.balanceRead / 100000000 ≤ 1000
  · exfalso
    unfold cycleStep at h
    rw [if_pos h1] at h
    simp at h
  · unfold cycleStep
    rw [if_neg h1]
    by_cases h2 : threshold ≤ checkRateLimit inp.capacityRead
    · rw [if_pos h2, if_pos h2]
      exact ⟨rfl, rfl⟩
    · rw [if_neg h2, if_neg h2]
      exact ⟨rfl, rfl⟩

/-- Claim C2 (witness): a concrete qualifying cycle attempts exactly one
executor call. -/
theorem qualifying_reading_triggers_witness :
    (cycleStep 0 ⟨0, 0⟩ ⟨some 0, some 0, true⟩).2.capacityChecks = 1 ∧
    (cycleStep 0 ⟨0, 0⟩ ⟨some 0, some 0, true⟩).2.execAttempts =
      (if (0 : ℚ) ≤ checkRateLimit (some 0) then 1 else 0) := by
  have h : (cycleStep (0 : ℚ) ⟨0, 0⟩ ⟨some 0, some 0, true⟩).2.exitCode = none := by
    simp only [cycleStep]
    split_ifs <;> simp_all
  exact qualifying_reading_triggers_exactly_once 0 ⟨0, 0⟩ ⟨some 0, some 0, true⟩ h

/-- Claim C4: in any cycle whose capacity read fails (and that is not stopped
by the safety floor), the failure is turned into a capacity value of 0 by
`checkRateLimit`, the cycle neither exits the process nor raises, it ends
with the configured 3000 ms delay, and the loop goes on to process the
remaining cycles. -/
theorem read_error_recovered_locally (threshold : ℚ) (s : TriggerState)
    (inp : CycleInput) (rest : List CycleInput)
    (hr : inp.capacityRead = none)
    (hsafe : ¬((s.cycleCount + 1) % 10 = 0 ∧
      checkAccountBalance inp.balanceRead / 100000000 ≤ 1000)) :
    (cycleStep threshold s inp).2.exitCode = none ∧
    (cycleStep threshold s inp).2.capacityValue = some 0 ∧
    (cycleStep threshold s inp).2.delayMs = some 3000 ∧
    (runTrigger threshold s (inp :: rest)).2 =
      (cycleStep threshold s inp).2 ::
        (runTrigger threshold (cycleStep threshold s inp).1 rest).2 := by
  have hcap : checkRateLimit inp.capacityRead = 0 := by rw [hr]; rfl
  have hmain : (cycleStep threshold s inp).2.exitCode = none ∧
      (cycleStep threshold s inp).2.capacityValue = some 0 ∧
      (cycleStep threshold s inp).2.delayMs = some 3000 := by
    unfold cycleStep
    rw [if_neg hsafe]
    split_ifs <;> exact ⟨rfl, by simp [hcap], rfl⟩
  refine ⟨hmain.1, hmain.2.1, hmain.2.2, ?_⟩
  show (runTrigger threshold s (inp :: rest)).2 = _
  simp only [runTrigger]
  rw [hmain.1]

/-- Claim C4 (witness): a concrete failed read is recovered and the loop
continues. -/
theorem read_error_recovered_witness :
    (cycleStep 0 ⟨0, 0⟩ ⟨some 0, none, true⟩).2.exitCode = none ∧
    (cycleStep 0 ⟨0, 0⟩ ⟨some 0, none, true⟩).2.capacityValue = some 0 ∧
    (cycleStep 0 ⟨0, 0⟩ ⟨some 0, none, true⟩).2.delayMs = some 3000 ∧
    (runTrigger 0 ⟨0, 0⟩ [⟨some 0, none, true⟩]).2 =
      (cycleStep 0 ⟨0, 0⟩ ⟨some 0, none, true⟩).2 ::
        (runTrigger 0 (cycleStep 0 ⟨0, 0⟩ ⟨some 0, none, true⟩).1 []).2 :=
  read_error_recovered_locally 0 ⟨0, 0⟩ ⟨some 0, none, true⟩ [] rfl
    (fun hc => absurd hc.1 (by norm_num))

/-- Claim C5: a failed executor call does not exit or halt the loop, the
cycle still ends with the normal delay, exactly one attempt is made (no
retry within the cycle), the transaction counter is incremented regardless,
and the whole cycle outcome is identical to that of a successful call. -/
theorem trigger_failure_nonfatal (threshold : ℚ) (s : TriggerState)
    (b c : Option ℕ)
    (hq : threshold ≤ checkRateLimit c)
    (hsafe : ¬((s.cycleCount + 1) % 10 = 0 ∧
      checkAccountBalance b / 100000000 ≤ 1000)) :
    (cycleStep threshold s ⟨b, c, false⟩).2.exitCode = none ∧
    (cycleStep threshold s ⟨b, c, false⟩).2.delayMs = some 3000 ∧
    (cycleStep threshold s ⟨b, c, false⟩).2.execAttempts = 1 ∧
    (cycleStep threshold s ⟨b, c, false⟩).1.transactionCount =
      s.transactionCount + 1 ∧
    cycleStep threshold s ⟨b, c, false⟩ = cycleStep threshold s ⟨b, c, true⟩ := by
  simp only [cycleStep]
  rw [if_neg hsafe, if_pos hq]
  exact ⟨rfl, rfl, rfl, rfl, by trivial⟩

/-- Claim C5 (witness): a concrete qualifying cycle with a failing executor
call continues and counts the attempt. -/
theorem trigger_failure_nonfatal_witness :
    (cycleStep 0 ⟨0, 0⟩ ⟨some 0, some 0, false⟩).2.exitCode = none ∧
    (cycleStep 0 ⟨0, 0⟩ ⟨some 0, some 0, false⟩).2.delayMs = some 3000 ∧
    (cycleStep 0 ⟨0, 0⟩ ⟨some 0, some 0, false⟩).2.execAttempts = 1 ∧
    (cycleStep 0 ⟨0, 0⟩ ⟨some 0, some 0, false⟩).1.transactionCount = 0 + 1 ∧
    cycleStep 0 (⟨0, 0⟩ : TriggerState) ⟨some 0, some 0, false⟩ =
      cycleStep 0 (⟨0, 0⟩ : TriggerState) ⟨some 0, some 0, true⟩ :=
  trigger_failure_nonfatal 0 ⟨0, 0⟩ (some 0) (some 0)
    (by simp [checkRateLimit, roundDouble_zero])
    (fun hc => absurd hc.1 (by norm_num))

/-- Claim C6: on every 10th cycle the auxiliary balance is read, and a
balance strictly below the 1000-token safety floor makes the process exit
with status 0 before any capacity reading or executor attempt in that cycle,
ending the loop. -/
theorem safety_floor_exits_cleanly (threshold : ℚ) (s : TriggerState)
    (inp : CycleInput) (rest : List CycleInput)
    (hcyc : (s.cycleCount + 1) % 10 = 0)
    (hbal : checkAccountBalance inp.balanceRead / 100000000 < 1000) :
    (cycleStep threshold s inp).2.exitCode = some 0 ∧
    (cycleStep threshold s inp).2.balanceChecks = 1 ∧
    (cycleStep threshold s inp).2.capacityChecks = 0 ∧
    (cycleStep threshold s inp).2.execAttempts = 0 ∧
    (runTrigger threshold s (inp :: rest)).2 = [(cycleStep threshold s inp).2] := by
  have hcond : (s.cycleCount + 1) % 10 = 0 ∧
      checkAccountBalance inp.balanceRead / 100000000 ≤ 1000 := ⟨hcyc, hbal.le⟩
  have hexit : (cycleStep threshold s inp).2.exitCode = some 0 := by
    unfold cycleStep
    rw [if_pos hcond]
  refine ⟨hexit, ?_, ?_, ?_, ?_⟩
  · unfold cycleStep
    rw [if_pos hcond]
  · unfold cycleStep
    rw [if_pos hcond]
  · unfold cycleStep
    rw [if_pos hcond]
  · simp only [runTrigger]
    rw [hexit]

/-- Claim C6 (witness): a concrete 10th cycle with a zero balance exits with
status 0 before any capacity reading. -/
theorem safety_floor_exits_witness :
    (cycleStep 0 ⟨0, 9⟩ ⟨some 0, some 0, true⟩).2.exitCode = some 0 ∧
    (cycleStep 0 ⟨0, 9⟩ ⟨some 0, some 0, true⟩).2.balanceChecks = 1 ∧
    (cycleStep 0 ⟨0, 9⟩ ⟨some 0, some 0, true⟩).2.capacityChecks = 0 ∧
    (cycleStep 0 ⟨0, 9⟩ ⟨some 0, some 0, true⟩).2.execAttempts = 0 ∧
    (runTrigger 0 ⟨0, 9⟩ [⟨some 0, some 0, true⟩]).2 =
      [(cycleStep 0 ⟨0, 9⟩ ⟨some 0, some 0, true⟩).2] :=
  safety_floor_exits_cleanly 0 ⟨0, 9⟩ ⟨some 0, some 0, true⟩ [] (by norm_num)
    (by simp [checkAccountBalance, roundDouble_zero])

/-- Claim C3 (counterexample): with the signing credential and threshold set
but the recipient identifier absent, startup does not exit: the monitoring
loop is entered, a capacity reading is taken (polling occurs), and the
missing recipient only surfaces as an `executeTransaction` error inside the
loop, which the loop catches. -/
theorem missing_recipient_not_startup_fatal :
    mainStartupExit (some default) (some default) none = none ∧
    monitorStartup (some default) (some default) none = .loopEntered false ∧
    (cycleStep 0 ⟨0, 0⟩ ⟨some 1, some 0, false⟩).2.capacityChecks = 1 ∧
    (cycleStep 0 ⟨0, 0⟩ ⟨some 1, some 0, false⟩).2.exitCode = none ∧
    executeTransaction none true = .error .missingRecipient := by
  refine ⟨rfl, rfl, ?_, ?_, rfl⟩
  · simp only [cycleStep]
    split_ifs <;> simp_all
  · simp only [cycleStep]
    split_ifs <;> simp_all

/-- Claim C3 (amended): a missing signing credential or missing numeric
threshold makes the auto-trigger script exit with code 1 before the loop,
and the transfer script exits with code 1 before its loop when any of its
three required environment values is missing; a missing recipient
identifier, however, is not a startup error of the auto-trigger script (it
is only detected inside the loop, see the counterexample). -/
theorem missing_config_fatal_amended
    (pvk thr rec e r u : Option String)
    (h1 : pvk = none ∨ thr = none)
    (h2 : e = none ∨ r = none ∨ u = none) :
    mainStartupExit pvk thr rec = some 1 ∧
    tokenTransferStartup e r u = some 1 := by
  constructor
  · rcases h1 with h | h
    · subst h; rfl
    · subst h
      cases pvk <;> rfl
  · rcases h2 with h | h | h <;> subst h
    · rfl
    · cases e
      · rfl
      · simp [tokenTransferStartup]
    · cases e
      · rfl
      · cases r
        · simp [tokenTransferStartup]
        · simp [tokenTransferStartup]

/-- Claim C3 (witness): concrete missing values are fatal at startup. -/
theorem missing_config_fatal_witness :
    mainStartupExit none (some default) (some default) = some 1 ∧
    tokenTransferStartup none (some default) (some default) = some 1 :=
  missing_config_fatal_amended none (some default) (some default)
    none (some default) (some default) (Or.inl rfl) (Or.inl rfl)

lemma waitGo_first_available (readings : ℕ → Option ℕ) :
    ∀ fuel taken i, taken ≤ i → i < taken + fuel →
      hasCapacity (readings i) = true →
      (∀ j, taken ≤ j → j < i → hasCapacity (readings j) = false) →
      waitGo readings fuel taken = (true, i + 1) := by
  intro fuel
  induction fuel with
  | zero => intro taken i h1 h2 _ _; omega
  | succ fuel ih =>
    intro taken i h1 h2 ha hb
    simp only [waitGo]
    by_cases he : taken = i
    · subst he
      rw [ha]
      rfl
    · have hlt : taken < i := by omega
      have hf : hasCapacity (readings taken) = false := hb taken le_rfl hlt
      rw [hf]
      simp only [Bool.false_eq_true, if_false]
      exact ih (taken + 1) i (by omega) (by omega) ha
        (fun j hj1 hj2 => hb j (by omega) hj2)

lemma waitGo_all_blocked (readings : ℕ → Option ℕ) :
    ∀ fuel taken,
      (∀ j, taken ≤ j → j < taken + fuel → hasCapacity (readings j) = false) →
      waitGo readings fuel taken = (false, taken + fuel) := by
  intro fuel
  induction fuel with
  | zero => intro taken _; rfl
  | succ fuel ih =>
    intro taken hb
    have hf : hasCapacity (readings taken) = false := hb taken le_rfl (by omega)
    simp only [waitGo]
    rw [hf]
    simp only [Bool.false_eq_true, if_false]
    rw [ih (taken + 1) (fun j hj1 hj2 => hb j (by omega) (by omega))]
    congr 1
    omega

/-- Claim C7: in wait mode, if the readings are unavailable up to the first
available one at (0-based) index `i` within the budget, the function returns
success having taken exactly `i + 1 ≤ maxWaitMinutes * 60 / 5` readings and
the process exits 0; with every reading in the budget unavailable it returns
failure after `maxWaitMinutes * 60 / 5` readings and the process exits 1. -/
theorem wait_mode_spec (r1 r2 : ℕ → Option ℕ) (m i : ℕ)
    (hi : i < m * 60 / 5)
    (ha : hasCapacity (r1 i) = true)
    (hb : ∀ j, j < i → hasCapacity (r1 j) = false)
    (hc : ∀ j, j < m * 60 / 5 → hasCapacity (r2 j) = false) :
    (waitForRateLimit r1 m = (true, i + 1) ∧ i + 1 ≤ m * 60 / 5 ∧
      waitExitCode r1 m = 0) ∧
    (waitForRateLimit r2 m = (false, m * 60 / 5) ∧ waitExitCode r2 m = 1) := by
  have h1 : waitForRateLimit r1 m = (true, i + 1) := by
    unfold waitForRateLimit
    exact waitGo_first_available r1 (m * 60 / 5) 0 i (Nat.zero_le i) (by omega) ha
      (fun j _ hj => hb j hj)
  have h2 : waitForRateLimit r2 m = (false, m * 60 / 5) := by
    unfold waitForRateLimit
    have h := waitGo_all_blocked r2 (m * 60 / 5) 0 (fun j _ hj => hc j (by omega))
    simpa using h
  refine ⟨⟨h1, by omega, ?_⟩, h2, ?_⟩
  · unfold waitExitCode
    rw [h1]
    simp
  · unfold waitExitCode
    rw [h2]
    simp

/-- Claim C7 (witness): with a 1-minute budget (12 attempts), two blocked
readings followed by an available one yield success after 3 readings and
exit code 0; all-blocked readings yield failure after 12 readings and exit
code 1. -/
theorem wait_mode_witness :
    (waitForRateLimit (fun j => if j = 2 then some 1 else some 0) 1 = (true, 3) ∧
      3 ≤ 1 * 60 / 5 ∧
      waitExitCode (fun j => if j = 2 then some 1 else some 0) 1 = 0) ∧
    (waitForRateLimit (fun _ => none) 1 = (false, 1 * 60 / 5) ∧
      waitExitCode (fun _ => none) 1 = 1) :=
  wait_mode_spec (fun j => if j = 2 then some 1 else some 0) (fun _ => none) 1 2
    (by norm_num)
    (by norm_num [hasCapacity, checkRateLimitPair, roundDouble_one])
    (by
      intro j hj
      have hne : j ≠ 2 := by omega
      simp [hne, hasCapacity, checkRateLimitPair, roundDouble_zero])
    (fun j _ => rfl)

lemma monitorStep_available (i : ℕ) (s : MonitorState) (r : Option ℕ)
    (h : hasCapacity r = true) :
    (monitorStep i s r).1 =
      { consecutiveAvailable := s.consecutiveAvailable + 1,
        consecutiveBlocked := 0,
        previousCapacity := some (checkRateLimitPair r).1 } := by
  have h' : (checkRateLimitPair r).2 = true := h
  simp only [monitorStep]
  rw [h']
  simp

lemma monitorStep_blocked (i : ℕ) (s : MonitorState) (r : Option ℕ)
    (h : hasCapacity r = false) :
    (monitorStep i s r).1 =
      { consecutiveAvailable := 0,
        consecutiveBlocked := s.consecutiveBlocked + 1,
        previousCapacity := some (checkRateLimitPair r).1 } := by
  have h' : (checkRateLimitPair r).2 = false := h
  simp only [monitorStep]
  rw [h']
  simp

lemma runMonitor_replicate_available (i c : ℕ)
    (hc : hasCapacity (some c) = true) :
    ∀ k (s : MonitorState),
      (runMonitor i s (List.replicate k (some c))).consecutiveAvailable =
        s.consecutiveAvailable + k ∧
      (runMonitor i s (List.replicate k (some c))).consecutiveBlocked =
        (if k = 0 then s.consecutiveBlocked else 0) := by
  intro k
  induction k with
  | zero => intro s; simp [runMonitor, List.replicate]
  | succ k ih =>
    intro s
    rw [List.replicate_succ]
    simp only [runMonitor]
    rw [monitorStep_available i s (some c) hc]
    obtain ⟨iha, ihb⟩ := ih
      { consecutiveAvailable := s.consecutiveAvailable + 1,
        consecutiveBlocked := 0,
        previousCapacity := some (checkRateLimitPair (some c)).1 }
    constructor
    · rw [iha]
      show s.consecutiveAvailable + 1 + k = s.consecutiveAvailable + (k + 1)
      omega
    · rw [ihb]
      show (if k = 0 then 0 else 0) =
        if k + 1 = 0 then s.consecutiveBlocked else 0
      simp

/-- Claim C8: in monitor mode, starting from the initial state, `k`
available readings leave `consecutiveAvailable = k` and
`consecutiveBlocked = 0`; the next unavailable reading resets
`consecutiveAvailable` to 0 and sets `consecutiveBlocked = 1`; and no
iteration ever attempts an executor call. -/
theorem monitor_streak_counters_spec (i k c : ℕ) (r : Option ℕ)
    (hc : hasCapacity (some c) = true) (hr : hasCapacity r = false) :
    (runMonitor i monitorInit (List.replicate k (some c))).consecutiveAvailable
      = k ∧
    (runMonitor i monitorInit (List.replicate k (some c))).consecutiveBlocked
      = 0 ∧
    (monitorStep i (runMonitor i monitorInit (List.replicate k (some c)))
      r).1.consecutiveAvailable = 0 ∧
    (monitorStep i (runMonitor i monitorInit (List.replicate k (some c)))
      r).1.consecutiveBlocked = 1 ∧
    (monitorStep i (runMonitor i monitorInit (List.replicate k (some c)))
      r).2.execAttempts = 0 := by
  obtain ⟨ha, hb⟩ := runMonitor_replicate_available i c hc k monitorInit
  have ha' : (runMonitor i monitorInit
      (List.replicate k (some c))).consecutiveAvailable = k := by
    rw [ha]
    simp [monitorInit]
  have hb' : (runMonitor i monitorInit
      (List.replicate k (some c))).consecutiveBlocked = 0 := by
    rw [hb]
    split_ifs <;> rfl
  refine ⟨ha', hb', ?_, ?_, rfl⟩
  · rw [monitorStep_blocked i _ r hr]
  · rw [monitorStep_blocked i _ r hr]
    simp [hb']

/-- Claim C8 (witness): three available readings then one blocked reading,
at a 5-second interval. -/
theorem monitor_streak_counters_witness :
    (runMonitor 5 monitorInit (List.replicate 3 (some 1))).consecutiveAvailable
      = 3 ∧
    (runMonitor 5 monitorInit (List.replicate 3 (some 1))).consecutiveBlocked
      = 0 ∧
    (monitorStep 5 (runMonitor 5 monitorInit (List.replicate 3 (some 1)))
      none).1.consecutiveAvailable = 0 ∧
    (monitorStep 5 (runMonitor 5 monitorInit (List.replicate 3 (some 1)))
      none).1.consecutiveBlocked = 1 ∧
    (monitorStep 5 (runMonitor 5 monitorInit (List.replicate 3 (some 1)))
      none).2.execAttempts = 0 :=
  monitor_streak_counters_spec 5 3 1 none
    (by norm_num [hasCapacity, checkRateLimitPair, roundDouble_one])
    rfl

lemma runMonitor_min_invariant (i : ℕ) :
    ∀ (rs : List (Option ℕ)) (s : MonitorState),
      min s.consecutiveAvailable s.consecutiveBlocked = 0 →
      min (runMonitor i s rs).consecutiveAvailable
        (runMonitor i s rs).consecutiveBlocked = 0 := by
  intro rs
  induction rs with
  | nil => intro s h; exact h
  | cons r rs ih =>
    intro s h
    simp only [runMonitor]
    apply ih
    rcases Bool.eq_false_or_eq_true (checkRateLimitPair r).2 with hb | hb
    · rw [monitorStep_available i s r hb]
      simp
    · rw [monitorStep_blocked i s r hb]
      simp


/-- Claim C10: in monitor mode both streak counters are non-negative after
every iteration, and at most one of them is non-zero: every state reachable
from the initial state by a finite sequence of readings satisfies
`min consecutiveAvailable consecutiveBlocked = 0`. -/
theorem monitor_counters_min_zero_invariant (i : ℕ) (rs : List (Option ℕ)) :
    0 ≤ (runMonitor i monitorInit rs).consecutiveAvailable ∧
    0 ≤ (runMonitor i monitorInit rs).consecutiveBlocked ∧
    min (runMonitor i monitorInit rs).consecutiveAvailable
      (runMonitor i monitorInit rs).consecutiveBlocked = 0 :=
  ⟨Nat.zero_le _, Nat.zero_le _, runMonitor_min_invariant i rs monitorInit rfl⟩

/-- Claim C9: the transfer script initiates a transfer exactly when the read
balance has reached `MIN_BALANCE = 300 * 10^8`; the transfer sends the whole
balance to the configured exchange deposit address, and a below-minimum
reading initiates nothing. -/
theorem sweep_transfers_iff_min_balance (upbit : String) (b1 b2 : ℕ)
    (h1 : MIN_BALANCE ≤ b1) (h2 : b2 < MIN_BALANCE) :
    sweepStep upbit (some b1) =
      { transferInitiated := true, transferAmount := some b1,
        transferDest := some upbit } ∧
    sweepStep upbit (some b2) =
      { transferInitiated := false, transferAmount := none,
        transferDest := none } ∧
    MIN_BALANCE = 300 * 10 ^ 8 := by
  refine ⟨?_, ?_, rfl⟩
  · simp only [sweepStep]
    rw [if_pos h1]
  · simp only [sweepStep]
    rw [if_neg (by omega)]

/-- Claim C9 (witness): a balance of exactly 300 tokens (in smallest units)
is swept in full, a zero balance is not. -/
theorem sweep_transfers_witness :
    sweepStep default (some 30000000000) =
      { transferInitiated := true, transferAmount := some 30000000000,
        transferDest := some default } ∧
    sweepStep default (some 0) =
      { transferInitiated := false, transferAmount := none,
        transferDest := none } ∧
    MIN_BALANCE = 300 * 10 ^ 8 :=
  sweep_transfers_iff_min_balance default 30000000000 0
    (by norm_num [MIN_BALANCE]) (by norm_num [MIN_BALANCE])

end MoveBridge
